import Mathlib

/-!
# Verification development for the company-intel-agent backend

Shallow embedding of the Python backend (`backend/models.py`,
`backend/tools/search.py`, `backend/tools/llm.py`, `backend/agents/*.py`,
`backend/orchestrator.py`).  External collaborators (the Tavily search API
and the hosted LLM) are modelled as oracle inputs: each external call site
receives its outcome as an `Except String` value (an `error` models a raised
exception, propagating like a Python exception).  Python strings are Lean
`String`s (both are sequences of unicode code points, so slicing by
characters agrees), JSON values are an explicit `JValue` type, and Python
dicts appearing in the data path are association lists.
-/

/-! ## Python string helpers -/

/-- Characters stripped by Python `str.strip()` (ASCII whitespace). -/
def isPyWs (c : Char) : Bool :=
  c = ' ' || c = '\t' || c = '\n' || c = '\r' || c = '\x0b' || c = '\x0c'

/-- Python `s.strip()`. -/
def pyStrip (s : String) : String :=
  ⟨((s.data.dropWhile isPyWs).reverse.dropWhile isPyWs).reverse⟩

/-- Python `s[:n]` on a string (first `n` code points). -/
def pyTake (s : String) (n : Nat) : String := ⟨s.data.take n⟩

/-! ## JSON values and `json.loads`

`backend/tools/llm.py` parses LLM replies with `json.loads`.  We embed a
JSON value type and a fuel-indexed recursive-descent parser following the
JSON grammar accepted by Python (which additionally accepts the tokens
`NaN`, `Infinity` and `-Infinity`).  Numbers are kept exactly as
`mantissa * 10 ^ exponent`. -/

inductive JValue where
  | null
  | bool (b : Bool)
  | num (mantissa : Int) (exponent : Int)
  | nan
  | inf (neg : Bool)
  | str (s : String)
  | arr (elems : List JValue)
  | obj (fields : List (String × JValue))

/-- Python truthiness of a JSON value (used by `if x:` checks). -/
def JValue.truthy : JValue → Bool
  | .null => false
  | .bool b => b
  | .num m _ => m ≠ 0
  | .nan => true
  | .inf _ => true
  | .str s => s ≠ ""
  | .arr l => !l.isEmpty
  | .obj l => !l.isEmpty

/-- Python dict lookup: later duplicate keys override earlier ones. -/
def lookupLast (kvs : List (String × JValue)) (k : String) : Option JValue :=
  kvs.foldl (fun acc p => if p.1 = k then some p.2 else acc) none

/-- Whitespace skipped by the JSON grammar. -/
def isJsonWs (c : Char) : Bool :=
  c = ' ' || c = '\t' || c = '\n' || c = '\r'

def skipWs : List Char → List Char
  | [] => []
  | c :: cs => if isJsonWs c then skipWs cs else c :: cs

def hexVal (c : Char) : Option Nat :=
  if '0' ≤ c ∧ c ≤ '9' then some (c.toNat - '0'.toNat)
  else if 'a' ≤ c ∧ c ≤ 'f' then some (c.toNat - 'a'.toNat + 10)
  else if 'A' ≤ c ∧ c ≤ 'F' then some (c.toNat - 'A'.toNat + 10)
  else none

/-- Body of a JSON string literal (after the opening quote), with escapes. -/
def parseStringChars (acc : List Char) : List Char → Option (String × List Char)
  | [] => none
  | '"' :: rest => some (⟨acc.reverse⟩, rest)
  | '\\' :: rest =>
    match rest with
    | '"' :: r => parseStringChars ('"' :: acc) r
    | '\\' :: r => parseStringChars ('\\' :: acc) r
    | '/' :: r => parseStringChars ('/' :: acc) r
    | 'b' :: r => parseStringChars ('\x08' :: acc) r
    | 'f' :: r => parseStringChars ('\x0c' :: acc) r
    | 'n' :: r => parseStringChars ('\n' :: acc) r
    | 'r' :: r => parseStringChars ('\r' :: acc) r
    | 't' :: r => parseStringChars ('\t' :: acc) r
    | 'u' :: a :: b :: c :: d :: r =>
      match hexVal a, hexVal b, hexVal c, hexVal d with
      | some ha, some hb, some hc, some hd =>
        parseStringChars (Char.ofNat (((ha * 16 + hb) * 16 + hc) * 16 + hd) :: acc) r
      | _, _, _, _ => none
    | _ => none
  | c :: rest => if c.toNat < 32 then none else parseStringChars (c :: acc) rest

def takeDigits : List Char → List Char × List Char
  | [] => ([], [])
  | c :: cs =>
    if c.isDigit then
      let (ds, rest) := takeDigits cs
      (c :: ds, rest)
    else ([], c :: cs)

def digitsToNat (ds : List Char) : Nat :=
  ds.foldl (fun a c => a * 10 + (c.toNat - '0'.toNat)) 0

/-- Optional fraction and exponent after the integer part of a number. -/
def parseExpPart (neg : Bool) (ip : Nat) (fds : List Char) (cs : List Char) :
    Option (JValue × List Char) :=
  let mantNat : Nat := ip * 10 ^ fds.length + digitsToNat fds
  let mant : Int := if neg then -(mantNat : Int) else (mantNat : Int)
  let fe : Int := -(fds.length : Int)
  match cs with
  | c :: t =>
    if c = 'e' ∨ c = 'E' then
      let (esign, t2) : Int × List Char :=
        match t with
        | '+' :: u => (1, u)
        | '-' :: u => (-1, u)
        | _ => (1, t)
      match takeDigits t2 with
      | ([], _) => none
      | (eds, rest) => some (JValue.num mant (fe + esign * (digitsToNat eds : Int)), rest)
    else some (JValue.num mant fe, c :: t)
  | [] => some (JValue.num mant fe, [])

def parseFracExp (neg : Bool) (ip : Nat) (cs : List Char) : Option (JValue × List Char) :=
  match cs with
  | '.' :: t =>
    match takeDigits t with
    | ([], _) => none
    | (fds, cs2) => parseExpPart neg ip fds cs2
  | _ => parseExpPart neg ip [] cs

/-- JSON number token (plus the `NaN` / `Infinity` extras Python accepts). -/
def parseNumber (cs : List Char) : Option (JValue × List Char) :=
  match cs with
  | 'N' :: 'a' :: 'N' :: rest => some (JValue.nan, rest)
  | 'I' :: 'n' :: 'f' :: 'i' :: 'n' :: 'i' :: 't' :: 'y' :: rest =>
    some (JValue.inf false, rest)
  | _ =>
    let (neg, cs1) : Bool × List Char :=
      match cs with
      | '-' :: t => (true, t)
      | _ => (false, cs)
    match cs1 with
    | 'I' :: 'n' :: 'f' :: 'i' :: 'n' :: 'i' :: 't' :: 'y' :: rest =>
      if neg then some (JValue.inf true, rest) else none
    | '0' :: rest => parseFracExp neg 0 rest
    | c :: _ =>
      if c.isDigit ∧ c ≠ '0' then
        match takeDigits cs1 with
        | (ds, rest) => parseFracExp neg (digitsToNat ds) rest
      else none
    | [] => none

mutual

def parseValue : Nat → List Char → Option (JValue × List Char)
  | 0, _ => none
  | fuel + 1, cs =>
    match skipWs cs with
    | 'n' :: 'u' :: 'l' :: 'l' :: rest => some (JValue.null, rest)
    | 't' :: 'r' :: 'u' :: 'e' :: rest => some (JValue.bool true, rest)
    | 'f' :: 'a' :: 'l' :: 's' :: 'e' :: rest => some (JValue.bool false, rest)
    | '"' :: rest =>
      match parseStringChars [] rest with
      | some (s, rest2) => some (JValue.str s, rest2)
      | none => none
    | '[' :: rest =>
      (match skipWs rest with
       | ']' :: rest2 => some (JValue.arr [], rest2)
       | other =>
         match parseElems fuel other [] with
         | some (l, rest2) => some (JValue.arr l, rest2)
         | none => none)
    | '{' :: rest =>
      (match skipWs rest with
       | '}' :: rest2 => some (JValue.obj [], rest2)
       | other =>
         match parseMembers fuel other [] with
         | some (l, rest2) => some (JValue.obj l, rest2)
         | none => none)
    | other => parseNumber other
termination_by structural fuel _ => fuel

def parseElems : Nat → List Char → List JValue → Option (List JValue × List Char)
  | 0, _, _ => none
  | fuel + 1, cs, acc =>
    match parseValue fuel cs with
    | none => none
    | some (v, rest) =>
      match skipWs rest with
      | ',' :: rest2 => parseElems fuel rest2 (acc ++ [v])
      | ']' :: rest2 => some (acc ++ [v], rest2)
      | _ => none
termination_by structural fuel _ _ => fuel

def parseMembers : Nat → List Char → List (String × JValue) →
    Option (List (String × JValue) × List Char)
  | 0, _, _ => none
  | fuel + 1, cs, acc =>
    match skipWs cs with
    | '"' :: rest =>
      (match parseStringChars [] rest with
       | none => none
       | some (k, rest2) =>
         match skipWs rest2 with
         | ':' :: rest3 =>
           (match parseValue fuel rest3 with
            | none => none
            | some (v, rest4) =>
              match skipWs rest4 with
              | ',' :: rest5 => parseMembers fuel rest5 (acc ++ [(k, v)])
              | '}' :: rest5 => some (acc ++ [(k, v)], rest5)
              | _ => none)
         | _ => none)
    | _ => none
termination_by structural fuel _ _ => fuel

end

/-- Python `json.loads`: parse a full document, rejecting trailing input. -/
def parseJson (s : String) : Option JValue :=
  match parseValue (2 * s.length + 4) s.data with
  | some (v, rest) => if skipWs rest = [] then some v else none
  | none => none

/-! ## Data model (`backend/models.py`) -/

inductive IntentType where
  | competitor
  | founder
  | business
  | unknown
deriving DecidableEq, BEq, Repr

/-- The string value of each `IntentType` enum member. -/
def IntentType.value : IntentType → String
  | .competitor => "competitor_analysis"
  | .founder => "founder_lookup"
  | .business => "business_overview"
  | .unknown => "unknown"

/-- `IntentType(s)`: the enum member with value `s`, if any. -/
def IntentType.ofString : String → Option IntentType
  | "competitor_analysis" => some .competitor
  | "founder_lookup" => some .founder
  | "business_overview" => some .business
  | "unknown" => some .unknown
  | _ => none

structure UserRequest where
  company_name : String
  website : Option String := none
  query : String
deriving DecidableEq, Repr

structure CompanyVerification where
  verified : Bool
  company_description : String
  similar_companies : List String
  verification_method : String
deriving DecidableEq, Repr

structure RouterResult where
  intent : IntentType
  reasoning : String
  search_queries : List String
  company_context : Option String := none
deriving DecidableEq, Repr

/-- `AgentEvent` / the dict built by `make_event` in the orchestrator. -/
structure AgentEvent where
  agent : String
  event : String
  content : String
deriving DecidableEq, Repr

def make_event (agent : String) (event : String) (content : String) : AgentEvent :=
  { agent := agent, event := event, content := content }

/-! ## Search tool (`backend/tools/search.py`)

A Tavily result dict is an association list of string fields; the opaque
client response is modelled by the list held under its `"results"` key. -/

abbrev RawDict := List (String × String)

/-- Python `r.get(k, default)` on a string-valued dict. -/
def dictGet (r : RawDict) (k : String) : Option String :=
  (r.find? (fun p => p.1 = k)).map (fun p => p.2)

/-- Python `r.get(k, d)`. -/
def dictGetD (r : RawDict) (k d : String) : String := (dictGet r k).getD d

/-- Python `r[k]` (raises `KeyError` when missing). -/
def dictIndex (r : RawDict) (k : String) : Except String String :=
  match dictGet r k with
  | some v => Except.ok v
  | none => Except.error ("KeyError: " ++ k)

/-- The dict `search` builds from one provider result: exactly the keys
`title`, `url` and `content`, with `content` truncated to 500 characters. -/
def searchNorm (r : RawDict) : RawDict :=
  [("title", dictGetD r "title" ""),
   ("url", dictGetD r "url" ""),
   ("content", pyTake (dictGetD r "content" "") 500)]

/-- `search(query, max_results)`: normalize the provider results into
`{title, url, content}` dicts.  `apiResponse` is the outcome of the
external API call. -/
def search (query : String) (max_results : Nat)
    (apiResponse : Except String (List RawDict)) : Except String (List RawDict) := do
  let response ← apiResponse
  Except.ok (response.map searchNorm)

/-! ## LLM tool (`backend/tools/llm.py`)

`chat` is an external call; each call site takes a `chatFn` oracle mapping
the user message it sends to the outcome of the call. -/

/-- `leadMatch pat cs`: `cs` begins with `pat` (Python `startswith`). -/
def leadMatch : List Char → List Char → Bool
  | [], _ => true
  | _ :: _, [] => false
  | p :: ps, c :: cs => p = c && leadMatch ps cs

/-- The `text.strip()` / code-fence stripping preamble of
`parse_json_response`. -/
def stripFences (text : String) : String :=
  let t1 := pyStrip text
  let t2 :=
    if leadMatch ['`', '`', '`'] t1.data then
      if t1.data.contains '\n' then ⟨(t1.data.dropWhile (fun c => c ≠ '\n')).drop 1⟩
      else ⟨t1.data.drop 3⟩
    else t1
  let t3 : String :=
    if leadMatch ['`', '`', '`'] t2.data.reverse then ⟨t2.data.take (t2.data.length - 3)⟩
    else t2
  pyStrip t3

def JSONDecodeError : String := "json.JSONDecodeError: Expecting value"

/-- `parse_json_response`: strip markdown fences, then `json.loads`. -/
def parse_json_response (text : String) : Except String JValue :=
  match parseJson (stripFences text) with
  | some v => Except.ok v
  | none => Except.error JSONDecodeError

/-! ## JSON field access as Python performs it -/

/-- Lookup in a parsed JSON value when it is an object. -/
def jGet (d : JValue) (k : String) : Option JValue :=
  match d with
  | .obj kvs => lookupLast kvs k
  | _ => none

/-- Python `data[k]`: `TypeError` on a non-dict, `KeyError` when missing. -/
def jIndex (d : JValue) (k : String) : Except String JValue :=
  match d with
  | .obj kvs =>
    match lookupLast kvs k with
    | some v => Except.ok v
    | none => Except.error ("KeyError: " ++ k)
  | _ => Except.error "TypeError: list indices must be integers"

/-- Python `data.get(k, default)`: `AttributeError` on a non-dict. -/
def pyGetD (d : JValue) (k : String) (default : JValue) : Except String JValue :=
  match d with
  | .obj kvs => Except.ok ((lookupLast kvs k).getD default)
  | _ => Except.error "AttributeError: no attribute get"

/-- Python `data.get(k)` (default `None`, surfaced here as `Option`). -/
def pyGet (d : JValue) (k : String) : Except String (Option JValue) :=
  match d with
  | .obj kvs => Except.ok (lookupLast kvs k)
  | _ => Except.error "AttributeError: no attribute get"

/-- Python `str()` of a JSON value, as used inside f-strings.  Numeric and
container rendering is abbreviated; no claim inspects those cases. -/
def pyFormat : JValue → String
  | .null => "None"
  | .bool b => if b then "True" else "False"
  | .num m e => toString m ++ "e" ++ toString e
  | .nan => "nan"
  | .inf neg => if neg then "-inf" else "inf"
  | .str s => s
  | .arr _ => "[...]"
  | .obj _ => "\x7b...\x7d"

/-- A value that must be a `str` (pydantic `str` field validation). -/
def asPyStr (v : JValue) : Except String String :=
  match v with
  | .str s => Except.ok s
  | _ => Except.error "ValidationError: str expected"

/-- A value that must be a `list[str]` (pydantic validation). -/
def asPyStrList (v : JValue) : Except String (List String) :=
  match v with
  | .arr l => l.mapM asPyStr
  | _ => Except.error "ValidationError: list expected"

/-! ## Router agent (`backend/agents/router.py`) -/

/-- One line of the `search_context` joined over results: Python indexes
the `title`, `url` and `content` keys directly (raising `KeyError`). -/
def sourceLine (r : RawDict) : Except String String := do
  let t ← dictIndex r "title"
  let u ← dictIndex r "url"
  let c ← dictIndex r "content"
  Except.ok s!"Source: {t} ({u})\n{c}"

/-- The `search_context` line built from a normalized search dict. -/
def sourceLineStr (r : RawDict) : String :=
  let t := dictGetD r "title" ""
  let u := dictGetD r "url" ""
  let c := pyTake (dictGetD r "content" "") 500
  s!"Source: {t} ({u})\n{c}"

/-- The lines of the joined `search_context`, in iteration order (the first
failing element raises, as in the Python generator expression). -/
def collectLines : List RawDict → Except String (List String)
  | [] => Except.ok []
  | r :: rest => do
    let line ← sourceLine r
    let more ← collectLines rest
    Except.ok (line :: more)

/-- `"\n\n".join(f"Source: {title} ({url})\n{content}" for r in results)`. -/
def buildSearchContext (rs : List RawDict) : Except String String := do
  let lines ← collectLines rs
  Except.ok (String.intercalate "\n\n" lines)

/-- The per-entry step of the `similar_names` list comprehension:
`none` when the `if s.get("name")` filter rejects the entry. -/
def similarEntry (s : JValue) : Except String (Option String) :=
  match s with
  | .obj kvs =>
    let nameV := lookupLast kvs "name"
    if (nameV.map JValue.truthy).getD false then
      match nameV.getD (JValue.str "") with
      | .str n =>
        match (lookupLast kvs "description").getD (JValue.str "") with
        | .str d => Except.ok (some (n ++ ": " ++ d))
        | _ => Except.error "TypeError: can only concatenate str"
      | _ => Except.error "TypeError: can only concatenate str"
    else Except.ok none
  | _ => Except.error "AttributeError: no attribute get"

/-- `[s.get("name", "") + ": " + s.get("description", "") for s in similar
if s.get("name")]`.  Iterating a non-list that is empty yields `[]`, a
non-empty string/dict fails at `s.get`, and other values are not iterable. -/
def similarNames (v : JValue) : Except String (List String) :=
  match v with
  | .arr l => do
    let entries ← l.mapM similarEntry
    Except.ok (entries.filterMap id)
  | .str s => if s = "" then Except.ok [] else Except.error "AttributeError: no attribute get"
  | .obj kvs => if kvs.isEmpty then Except.ok [] else Except.error "AttributeError: no attribute get"
  | _ => Except.error "TypeError: not iterable"

/-- The `description` assembly of `verify_company`: start from
`target.get("description", "")`, append industry and distinguishing info
when truthy. -/
def buildDescription (target : JValue) : Except String String := do
  let descV ← pyGetD target "description" (JValue.str "")
  match descV with
  | .str d0 => do
    let indV ← pyGet target "industry"
    let d1 :=
      match indV with
      | some iv => if iv.truthy then d0 ++ " (Industry: " ++ pyFormat iv ++ ")" else d0
      | none => d0
    let disV ← pyGet target "distinguishing_info"
    let d2 :=
      match disV with
      | some dv => if dv.truthy then d1 ++ " - " ++ pyFormat dv else d1
      | none => d1
    Except.ok d2
  | _ => Except.error "TypeError: can only concatenate str"

/-- `verify_company(company_name, website)`.  `apiA` / `apiB` are the
outcomes of the two Tavily calls it makes, `chatFn` the outcome of its LLM
call as a function of the user message sent. -/
def verify_company (company_name website : String)
    (apiA apiB : Except String (List RawDict))
    (chatFn : String → Except String String) :
    Except String (CompanyVerification × List RawDict) := do
  let search_query := s!"site:{website} OR \"{website}\" {company_name}"
  let results ← search search_query 3 apiA
  let name_results ← search s!"{company_name} company" 3 apiB
  let all_results := results ++ name_results
  if all_results.isEmpty then
    Except.ok
      ({ verified := false
         company_description := s!"Could not verify {company_name}"
         similar_companies := []
         verification_method := "no search results" }, [])
  else do
    let search_context ← buildSearchContext all_results
    let user_msg := s!"Target Company: {company_name}\nWebsite: {website}\n\nSearch Results:\n{search_context}\n\nAnalyze these results to identify the target company and any similarly-named companies."
    let raw ← chatFn user_msg
    let data ← parse_json_response raw
    let target ← pyGetD data "target_company" (JValue.obj [])
    let similar ← pyGetD data "similar_companies" (JValue.arr [])
    let similar_names ← similarNames similar
    let description ← buildDescription target
    let confV ← pyGet data "confidence"
    let verified :=
      match confV with
      | some (.str s) => s = "high" || s = "medium"
      | _ => false
    Except.ok
      ({ verified := verified
         company_description := description
         similar_companies := similar_names
         verification_method := s!"website verification via {website}" }, all_results)

/-- Python `website or "not provided"` for an `Optional[str]`. -/
def websiteOr (website : Option String) : String :=
  match website with
  | some w => if w = "" then "not provided" else w
  | none => "not provided"

/-- Python truthiness of an `Optional[str]` (`None` and `""` are falsy). -/
def strOptTruthy : Option String → Bool
  | some s => s ≠ ""
  | none => false

/-- `route(company_name, website, user_query, company_context)`; `chatFn`
is the outcome of its LLM call as a function of the user message sent. -/
def route (company_name : String) (website : Option String) (user_query : String)
    (company_context : Option String)
    (chatFn : String → Except String String) : Except String RouterResult := do
  let context_info :=
    match company_context with
    | some c => if c = "" then "" else "\nVerified Company Context: " ++ c
    | none => ""
  let webStr := websiteOr website
  let user_message := s!"Company: {company_name}\nWebsite: {webStr}{context_info}\nUser\x27s question: {user_query}"
  let raw ← chatFn user_message
  let data ← parse_json_response raw
  let intentV ← jIndex data "intent"
  let intent ←
    match intentV with
    | .str s =>
      (match IntentType.ofString s with
       | some i => Except.ok i
       | none => Except.error "ValueError: not a valid IntentType")
    | _ => Except.error "ValueError: not a valid IntentType"
  let reasoningV ← jIndex data "reasoning"
  let reasoning ← asPyStr reasoningV
  let search_queries ←
    match jGet data "search_queries" with
    | some v => asPyStrList v
    | none => Except.ok [company_name ++ " " ++ user_query]
  Except.ok
    { intent := intent
      reasoning := reasoning
      search_queries := search_queries
      company_context := company_context }

/-! ## Specialist agents (`backend/agents/{competitor,founder,business}.py`)

Each builds the same `search_context` and `context_info`, differing only in
the final question line of the user message; prompt template constants are
out of scope (spec section 1).  `user_msg` is the prompt construction done
inside `synthesize` before its LLM call. -/

/-- The `context_info` piece shared by the three specialists (note the
trailing newline, unlike the router). -/
def specialistContextInfo (company_context : Option String) : String :=
  match company_context with
  | some c => if c = "" then "" else "\nVerified Company Context: " ++ c ++ "\n"
  | none => ""

namespace competitor

def user_msg (company_name : String) (search_results : List RawDict)
    (company_context : Option String) : Except String String := do
  let search_context ← buildSearchContext search_results
  let context_info := specialistContextInfo company_context
  Except.ok s!"Company: {company_name}{context_info}\nSearch Results:\n{search_context}\n\nBased on these search results, who are the top 3 competitors of {company_name}?"

def synthesize (company_name : String) (search_results : List RawDict)
    (company_context : Option String)
    (chatFn : String → Except String String) : Except String String := do
  let msg ← user_msg company_name search_results company_context
  chatFn msg

end competitor

namespace founder

def user_msg (company_name : String) (search_results : List RawDict)
    (company_context : Option String) : Except String String := do
  let search_context ← buildSearchContext search_results
  let context_info := specialistContextInfo company_context
  Except.ok s!"Company: {company_name}{context_info}\nSearch Results:\n{search_context}\n\nBased on these search results, who founded {company_name} and who leads it now?"

def synthesize (company_name : String) (search_results : List RawDict)
    (company_context : Option String)
    (chatFn : String → Except String String) : Except String String := do
  let msg ← user_msg company_name search_results company_context
  chatFn msg

end founder

namespace business

def user_msg (company_name : String) (search_results : List RawDict)
    (company_context : Option String) : Except String String := do
  let search_context ← buildSearchContext search_results
  let context_info := specialistContextInfo company_context
  Except.ok s!"Company: {company_name}{context_info}\nSearch Results:\n{search_context}\n\nBased on these search results, provide a business overview of {company_name}."

def synthesize (company_name : String) (search_results : List RawDict)
    (company_context : Option String)
    (chatFn : String → Except String String) : Except String String := do
  let msg ← user_msg company_name search_results company_context
  chatFn msg

end business

/-! ## `json.dumps` for a list of strings (`ensure_ascii=False`) -/

def hexDigit (n : Nat) : Char :=
  if n < 10 then Char.ofNat ('0'.toNat + n) else Char.ofNat ('a'.toNat + n - 10)

def hex4 (n : Nat) : String :=
  ⟨[hexDigit (n / 4096 % 16), hexDigit (n / 256 % 16), hexDigit (n / 16 % 16), hexDigit (n % 16)]⟩

def jsonEscapeChar (c : Char) : String :=
  if c = '"' then "\\\""
  else if c = '\\' then "\\\\"
  else if c = '\n' then "\\n"
  else if c = '\r' then "\\r"
  else if c = '\t' then "\\t"
  else if c = '\x08' then "\\b"
  else if c = '\x0c' then "\\f"
  else if c.toNat < 32 then "\\u" ++ hex4 c.toNat
  else String.singleton c

def json_dumps (l : List String) : String :=
  "[" ++ String.intercalate ", "
    (l.map (fun s => "\"" ++ String.join (s.data.map jsonEscapeChar) ++ "\"")) ++ "]"

/-! ## Orchestrator (`backend/orchestrator.py`)

`run_pipeline` is an async generator; we model it as a function from the
request and an environment of external-call outcomes to the full list of
yielded events.  Alongside the events we log every external call the
pipeline makes (arguments as passed), so that claims about which functions
are called, with what, can be stated.  `await asyncio.sleep` delays are
progress pacing with no observable effect on the stream and are dropped. -/

structure VerifyCall where
  company : String
  website : String
deriving DecidableEq, Repr

structure RouteCall where
  company : String
  website : Option String
  query : String
  ctx : Option String
deriving DecidableEq, Repr

structure SearchCall where
  query : String
  max_results : Nat
deriving DecidableEq, Repr

structure SynthCall where
  agent : String
  company : String
  results : List RawDict
  ctx : Option String
deriving DecidableEq, Repr

structure Trace where
  verifyCalls : List VerifyCall := []
  routeCalls : List RouteCall := []
  searchCalls : List SearchCall := []
  synthCalls : List SynthCall := []
deriving DecidableEq, Repr

structure PipeState where
  events : List AgentEvent := []
  trace : Trace := {}
deriving DecidableEq, Repr

/-- The pipeline computation: state of emitted events and logged calls,
with a raised exception short-circuiting but keeping the state (a Python
generator keeps the events already yielded). -/
def PipeM (α : Type) : Type := PipeState → Except String α × PipeState

instance : Monad PipeM where
  pure a := fun s => (Except.ok a, s)
  bind m f := fun s =>
    match m s with
    | (Except.ok a, s2) => f a s2
    | (Except.error e, s2) => (Except.error e, s2)

/-- `yield make_event(...)`. -/
def emit (ev : AgentEvent) : PipeM Unit := fun s =>
  (Except.ok (), { s with events := s.events ++ [ev] })

/-- An external call outcome entering the pipeline. -/
def liftE (x : Except String α) : PipeM α := fun s => (x, s)

def recordVerify (c w : String) : PipeM Unit := fun s =>
  (Except.ok (),
   { s with trace := { s.trace with verifyCalls := s.trace.verifyCalls ++ [⟨c, w⟩] } })

def recordRoute (c : String) (w : Option String) (q : String) (ctx : Option String) :
    PipeM Unit := fun s =>
  (Except.ok (),
   { s with trace := { s.trace with routeCalls := s.trace.routeCalls ++ [⟨c, w, q, ctx⟩] } })

def recordSearch (q : String) (n : Nat) : PipeM Unit := fun s =>
  (Except.ok (),
   { s with trace := { s.trace with searchCalls := s.trace.searchCalls ++ [⟨q, n⟩] } })

def recordSynth (agent c : String) (results : List RawDict) (ctx : Option String) :
    PipeM Unit := fun s =>
  (Except.ok (),
   { s with trace := { s.trace with synthCalls := s.trace.synthCalls ++ [⟨agent, c, results, ctx⟩] } })

/-- Outcomes of the external services for one request: the two Tavily calls
inside `verify_company`, its LLM call, the router LLM call, the Tavily API
response for the n-th orchestrator search, the specialist LLM call, and the
formatted elapsed time shown for the n-th search. -/
structure Env where
  verifySearchA : Except String (List RawDict)
  verifySearchB : Except String (List RawDict)
  verifyChat : String → Except String String
  routeChat : String → Except String String
  searchApi : Nat → Except String (List RawDict)
  synthChat : String → Except String String
  elapsedStr : Nat → String

/-- Signature of a specialist `synthesize` function. -/
abbrev SynthFn :=
  String → List RawDict → Option String → (String → Except String String) →
    Except String String

/-- The `synthesize_map` dispatch dict of Step 2. -/
def synthesize_map : List (IntentType × (String × SynthFn)) :=
  [(IntentType.competitor, ("Competitor Agent", competitor.synthesize)),
   (IntentType.founder, ("Founder Agent", founder.synthesize)),
   (IntentType.business, ("Business Agent", business.synthesize))]

/-- `synthesize_map.get(result.intent, ("Business Agent", business.synthesize))`. -/
def dispatch (intent : IntentType) : String × SynthFn :=
  (synthesize_map.lookup intent).getD ("Business Agent", business.synthesize)

/-- The `intent_labels` dict with its `.get(..., "❓ Unknown")` default. -/
def intent_labels : List (IntentType × String) :=
  [(IntentType.competitor, "🏢 Competitor Analysis"),
   (IntentType.founder, "👤 Founder Lookup"),
   (IntentType.business, "📊 Business Overview")]

def intent_label (intent : IntentType) : String :=
  (intent_labels.lookup intent).getD "❓ Unknown"

/-- The `for similar in verification.similar_companies[:3]` display loop. -/
def similarLoop : List String → PipeM Unit
  | [] => pure ()
  | x :: rest => do
    emit (make_event "Router" "thinking" s!"   • {x}")
    similarLoop rest

/-- The similar-companies display of Step 0. -/
def similarStep (verification : CompanyVerification) : PipeM Unit :=
  if !verification.similar_companies.isEmpty then do
    emit (make_event "Router" "thinking" "⚠️ Found companies with similar names:")
    similarLoop (verification.similar_companies.take 3)
  else pure ()

/-- The `company_context` assigned by the verified / unverified branches of
Step 0. -/
def ctxValue (verification : CompanyVerification) : Option String :=
  if verification.verified then some verification.company_description
  else if verification.company_description ≠ "" then some verification.company_description
  else none

/-- The verification-result display of Step 0, returning the assigned
`company_context`. -/
def verifiedStep (w : String) (verification : CompanyVerification) : PipeM (Option String) :=
  if verification.verified then do
    emit (make_event "Router" "decision" s!"✅ Company verified via {w}")
    let desc := verification.company_description
    emit (make_event "Router" "decision" s!"🏢 Target: {desc}")
    pure (some desc)
  else do
    emit (make_event "Router" "thinking"
      "⚠️ Could not fully verify company, proceeding with available info")
    if verification.company_description ≠ "" then
      pure (some verification.company_description)
    else pure none

/-- Step 0 with a truthy website: verification events, the
`verify_company` call, and the resulting `company_context`. -/
def verifyYes (env : Env) (company w query : String) : PipeM (Option String) := do
  emit (make_event "Router" "thinking"
    s!"📝 Received request: analyze \x27{company}\x27 ({w}) - \"{query}\"")
  emit (make_event "Router" "tool_call"
    s!"🔍 Verifying company identity via website: {w}")
  emit (make_event "Router" "tool_call"
    s!"🔍 Searching: site:{w} OR \"{w}\" {company}")
  emit (make_event "Router" "tool_call"
    s!"🔍 Searching: {company} company (to find similar names)")
  recordVerify company w
  let vr ← liftE (verify_company company w env.verifySearchA env.verifySearchB env.verifyChat)
  let verification := vr.1
  let n := vr.2.length
  emit (make_event "Router" "tool_result" s!"📄 Found {n} results for verification")
  similarStep verification
  verifiedStep w verification

/-- Step 0 with no (truthy) website: verification skipped. -/
def verifyNo (company query : String) : PipeM (Option String) := do
  emit (make_event "Router" "thinking"
    s!"📝 Received request: analyze \x27{company}\x27 - \"{query}\"")
  emit (make_event "Router" "thinking"
    "💡 Tip: Provide website URL for more accurate results when company name is common")
  pure none

def verifyStep (env : Env) (company : String) (website : Option String) (query : String) :
    PipeM (Option String) :=
  match website with
  | some w => if w ≠ "" then verifyYes env company w query else verifyNo company query
  | none => verifyNo company query

/-- Step 1: router intent analysis. -/
def routeStep (env : Env) (company : String) (website : Option String) (query : String)
    (company_context : Option String) : PipeM RouterResult := do
  emit (make_event "Router" "thinking"
    "🤔 Analyzing user intent... What does the user want to know?")
  recordRoute company website query company_context
  let result ← liftE (route company website query company_context env.routeChat)
  let reasoning := result.reasoning
  emit (make_event "Router" "thinking" s!"💭 Reasoning: {reasoning}")
  let label := intent_label result.intent
  emit (make_event "Router" "decision" s!"✅ Intent identified: {label}")
  let qjson := json_dumps result.search_queries
  emit (make_event "Router" "decision" s!"📋 Search queries planned: {qjson}")
  pure result

/-- Step 2 announcement events after specialist selection. -/
def announceStep (agent_name : String) (company_context : Option String) : PipeM Unit := do
  emit (make_event agent_name "thinking" s!"🚀 {agent_name} activated! Starting research...")
  match company_context with
  | some c =>
    if c ≠ "" then do
      let preview := pyTake c 100
      emit (make_event agent_name "thinking"
        s!"📌 Using verified company context: {preview}...")
    else pure ()
  | none => pure ()

/-- The `for j, r in enumerate(search_results, 1)` display loop. -/
def resultsLoop : List RawDict → Nat → PipeM Unit
  | [], _ => pure ()
  | r :: rest, j => do
    let title := pyTake (dictGetD r "title" "No title") 60
    let url := dictGetD r "url" ""
    let preview := (pyTake (dictGetD r "content" "") 100).replace "\n" " "
    emit (make_event "Tavily" "tool_result" s!"   📄 Result {j}: {title}")
    emit (make_event "Tavily" "tool_result" s!"      🔗 {url}")
    emit (make_event "Tavily" "tool_result" s!"      💬 \"{preview}...\"")
    resultsLoop rest (j + 1)

/-- Step 3: the `for i, search_query in enumerate(result.search_queries[:2], 1)`
loop, accumulating `all_search_results`; `idx` is the 0-based call number. -/
def searchLoop (env : Env) : List String → Nat → PipeM (List RawDict)
  | [], _ => pure []
  | q :: rest, idx => do
    let i := idx + 1
    emit (make_event "Tavily" "tool_call" s!"🔍 Search [{i}]: \"{q}\"")
    emit (make_event "Tavily" "thinking" "📡 Sending request to Tavily API...")
    recordSearch q 3
    let search_results ← liftE (search q 3 (env.searchApi idx))
    let el := env.elapsedStr idx
    let m := search_results.length
    emit (make_event "Tavily" "tool_result"
      s!"⏱️ Tavily responded in {el}s - Found {m} results")
    resultsLoop search_results 1
    let more ← searchLoop env rest (idx + 1)
    pure (search_results ++ more)

/-- Steps 4 and 5 up to the final answer. -/
def finishStep (env : Env) (agent_name : String) (synthesize_fn : SynthFn)
    (company : String) (all_search_results : List RawDict)
    (company_context : Option String) : PipeM Unit := do
  let total := all_search_results.length
  emit (make_event agent_name "tool_result" s!"📊 Total: {total} search results collected")
  emit (make_event agent_name "thinking" "🧠 Synthesizing search results with Claude...")
  recordSynth agent_name company all_search_results company_context
  let answer ← liftE (synthesize_fn company all_search_results company_context env.synthChat)
  emit (make_event agent_name "final_answer" answer)

/-- The whole `try` block of `run_pipeline` except the final done event. -/
def mainBody (req : UserRequest) (env : Env) : PipeM Unit := do
  let company := req.company_name
  let website := req.website
  let query := req.query
  let company_context ← verifyStep env company website query
  let result ← routeStep env company website query company_context
  let pair := dispatch result.intent
  let agent_name := pair.1
  let synthesize_fn := pair.2
  announceStep agent_name company_context
  let all_search_results ← searchLoop env (result.search_queries.take 2) 0
  finishStep env agent_name synthesize_fn company all_search_results company_context

def pipelineBody (req : UserRequest) (env : Env) : PipeM Unit := do
  mainBody req env
  emit (make_event "System" "done" "✅ Analysis complete!")

def initState : PipeState := {}

def pipelineRun (req : UserRequest) (env : Env) : Except String Unit × PipeState :=
  pipelineBody req env initState

/-- `traceback.format_exc()` for the exception modelled by message `e`. -/
def format_exc (e : String) : String := "Traceback (most recent call last):\n" ++ e

/-- `run_pipeline`: the full stream of yielded events (and the call log).
The `except` clause appends the two error events. -/
def run_pipeline (req : UserRequest) (env : Env) : List AgentEvent × Trace :=
  match pipelineRun req env with
  | (Except.ok _, s) => (s.events, s.trace)
  | (Except.error e, s) =>
    (s.events ++ [make_event "System" "error" ("❌ Error: " ++ e),
                  make_event "System" "error" (format_exc e)], s.trace)

/-! ### Derived observers

Values of intermediate pipeline data, recomputed from the embedded
functions (the pipeline actions never read the event/trace state, so these
agree with what the run uses). -/

/-- The `company_context` produced by Step 0 in the truthy-website case. -/
def verifyValue (env : Env) (company w : String) : Except String (Option String) :=
  match verify_company company w env.verifySearchA env.verifySearchB env.verifyChat with
  | Except.error e => Except.error e
  | Except.ok (verification, _) => Except.ok (ctxValue verification)

/-- The `company_context` reaching Step 1. -/
def verifyCtx (req : UserRequest) (env : Env) : Except String (Option String) :=
  match req.website with
  | some w => if w ≠ "" then verifyValue env req.company_name w else Except.ok none
  | none => Except.ok none

/-- The `RouterResult` produced by Step 1 (or the pending exception). -/
def routeOutcome (req : UserRequest) (env : Env) : Except String RouterResult :=
  match verifyCtx req env with
  | Except.ok ctx => route req.company_name req.website req.query ctx env.routeChat
  | Except.error e => Except.error e

/-! ## Concrete requests and environments used to exercise the pipeline -/

def replyFounder : String :=
  "\x7b\"intent\": \"founder_lookup\", \"reasoning\": \"asks about founder\", \"search_queries\": [\"Acme founder\", \"Acme CEO\"]\x7d"

def replyUnknown : String :=
  "\x7b\"intent\": \"unknown\", \"reasoning\": \"fallback\", \"search_queries\": [\"Acme info\"]\x7d"

def replyCompetitor : String :=
  "\x7b\"intent\": \"competitor_analysis\", \"reasoning\": \"rivals\", \"search_queries\": [\"Acme rivals\"]\x7d"

def reqC2 : UserRequest := { company_name := "Acme", website := none, query := "what does Acme do?" }

/-- An environment whose router LLM call raises. -/
def envC2 : Env :=
  { verifySearchA := Except.ok []
    verifySearchB := Except.ok []
    verifyChat := fun _ => Except.error "unreached"
    routeChat := fun _ => Except.error "boom"
    searchApi := fun _ => Except.ok []
    synthChat := fun _ => Except.ok "answer"
    elapsedStr := fun _ => "0.10" }

def reqC3 : UserRequest := { company_name := "Acme", website := none, query := "who founded Acme?" }

/-- A fully successful environment: the router classifies founder_lookup
with two queries, each search returns one result. -/
def envC3 : Env :=
  { verifySearchA := Except.ok []
    verifySearchB := Except.ok []
    verifyChat := fun _ => Except.error "unreached"
    routeChat := fun _ => Except.ok replyFounder
    searchApi := fun _ => Except.ok [[("title", "T"), ("url", "U"), ("content", "C")]]
    synthChat := fun _ => Except.ok "the answer"
    elapsedStr := fun _ => "0.42" }

def reqC4 : UserRequest := { company_name := "Acme", website := none, query := "overview please" }

def envC4 : Env :=
  { verifySearchA := Except.ok []
    verifySearchB := Except.ok []
    verifyChat := fun _ => Except.error "unreached"
    routeChat := fun _ => Except.ok replyCompetitor
    searchApi := fun _ => Except.ok []
    synthChat := fun _ => Except.ok "the answer"
    elapsedStr := fun _ => "0.05" }

def reqC9 : UserRequest := { company_name := "Acme", website := none, query := "hmm" }

/-- The router result produced by parsing `replyUnknown`. -/
def rrC9 : RouterResult :=
  { intent := IntentType.unknown, reasoning := "fallback",
    search_queries := ["Acme info"], company_context := none }

/-- The JSON document carried by `replyCompetitor`. -/
def dC5 : JValue :=
  JValue.obj
    [("intent", JValue.str "competitor_analysis"), ("reasoning", JValue.str "rivals"),
     ("search_queries", JValue.arr [JValue.str "Acme rivals"])]

/-- The router result produced by parsing `replyCompetitor`. -/
def rrC5 : RouterResult :=
  { intent := IntentType.competitor, reasoning := "rivals",
    search_queries := ["Acme rivals"], company_context := none }

/-- An environment whose router LLM reply classifies the intent as the
enum value `unknown`. -/
def envC9 : Env :=
  { verifySearchA := Except.ok []
    verifySearchB := Except.ok []
    verifyChat := fun _ => Except.error "unreached"
    routeChat := fun _ => Except.ok replyUnknown
    searchApi := fun _ => Except.ok []
    synthChat := fun _ => Except.ok "the answer"
    elapsedStr := fun _ => "0.07" }

/-! ## Basic lemmas about the pipeline monad -/

@[simp] theorem bind_app {α β : Type} (m : PipeM α) (f : α → PipeM β) (s : PipeState) :
    (m >>= f) s =
      match m s with
      | (Except.ok a, s2) => f a s2
      | (Except.error e, s2) => (Except.error e, s2) := rfl

@[simp] theorem pure_app {α : Type} (a : α) (s : PipeState) :
    (pure a : PipeM α) s = (Except.ok a, s) := rfl

@[simp] theorem emit_app (ev : AgentEvent) (s : PipeState) :
    emit ev s = (Except.ok (), { s with events := s.events ++ [ev] }) := rfl

@[simp] theorem liftE_app {α : Type} (x : Except String α) (s : PipeState) :
    liftE x s = (x, s) := rfl

@[simp] theorem recordVerify_app (c w : String) (s : PipeState) :
    recordVerify c w s =
      (Except.ok (),
       { s with trace := { s.trace with verifyCalls := s.trace.verifyCalls ++ [⟨c, w⟩] } }) := rfl

@[simp] theorem recordRoute_app (c : String) (w : Option String) (q : String)
    (ctx : Option String) (s : PipeState) :
    recordRoute c w q ctx s =
      (Except.ok (),
       { s with trace := { s.trace with routeCalls := s.trace.routeCalls ++ [⟨c, w, q, ctx⟩] } }) := rfl

@[simp] theorem recordSearch_app (q : String) (n : Nat) (s : PipeState) :
    recordSearch q n s =
      (Except.ok (),
       { s with trace := { s.trace with searchCalls := s.trace.searchCalls ++ [⟨q, n⟩] } }) := rfl

@[simp] theorem recordSynth_app (agent c : String) (results : List RawDict)
    (ctx : Option String) (s : PipeState) :
    recordSynth agent c results ctx s =
      (Except.ok (),
       { s with trace := { s.trace with synthCalls := s.trace.synthCalls ++ [⟨agent, c, results, ctx⟩] } }) := rfl

@[simp] theorem make_event_event (a k c : String) : (make_event a k c).event = k := rfl

@[simp] theorem make_event_agent (a k c : String) : (make_event a k c).agent = a := rfl

/-- Rewrite a pipeline call to an explicit pair once its value is known. -/
theorem eta_ok {α : Type} (m : PipeM α) (v : Except String α) (s : PipeState)
    (h : (m s).1 = v) : m s = (v, (m s).2) := by
  rw [← h]

/-! ## Events never carry kind "error" inside the `try` block -/

/-- `m` only ever adds events whose kind is not `"error"`. -/
def NoErrEvents {α : Type} (m : PipeM α) : Prop :=
  ∀ s : PipeState, (∀ e ∈ s.events, e.event ≠ "error") →
    ∀ e ∈ (m s).2.events, e.event ≠ "error"

theorem noerr_bind {α β : Type} {m : PipeM α} {f : α → PipeM β}
    (hm : NoErrEvents m) (hf : ∀ a, NoErrEvents (f a)) : NoErrEvents (m >>= f) := by
  intro s hs e he
  rcases hms : m s with ⟨r, s2⟩
  have hs2 : ∀ e ∈ s2.events, e.event ≠ "error" := by
    intro e' he'
    have := hm s hs e'
    rw [hms] at this
    exact this he'
  rcases r with e0 | a
  · simp only [bind_app, hms] at he
    exact hs2 e he
  · simp only [bind_app, hms] at he
    exact hf a s2 hs2 e he

theorem noerr_pure {α : Type} (a : α) : NoErrEvents (pure a : PipeM α) := by
  intro s hs e he
  simpa using hs e he

theorem noerr_emit {ev : AgentEvent} (h : ev.event ≠ "error") : NoErrEvents (emit ev) := by
  intro s hs e he
  simp only [emit_app, List.mem_append, List.mem_singleton] at he
  rcases he with he | he
  · exact hs e he
  · rw [he]; exact h

theorem noerr_liftE {α : Type} (x : Except String α) : NoErrEvents (liftE x) := by
  intro s hs e he
  exact hs e he

theorem noerr_recordVerify (c w : String) : NoErrEvents (recordVerify c w) := by
  intro s hs e he
  exact hs e he

theorem noerr_recordRoute (c : String) (w : Option String) (q : String)
    (ctx : Option String) : NoErrEvents (recordRoute c w q ctx) := by
  intro s hs e he
  exact hs e he

theorem noerr_recordSearch (q : String) (n : Nat) : NoErrEvents (recordSearch q n) := by
  intro s hs e he
  exact hs e he

theorem noerr_recordSynth (agent c : String) (results : List RawDict)
    (ctx : Option String) : NoErrEvents (recordSynth agent c results ctx) := by
  intro s hs e he
  exact hs e he

theorem noerr_emit_mk (a k c : String) (h : ¬ k = "error") :
    NoErrEvents (emit (make_event a k c)) := noerr_emit h

theorem noerr_similarLoop (l : List String) : NoErrEvents (similarLoop l) := by
  induction l with
  | nil => exact noerr_pure ()
  | cons x rest ih =>
    exact noerr_bind (noerr_emit_mk _ "thinking" _ (by decide)) (fun _ => ih)

theorem noerr_similarStep (verification : CompanyVerification) :
    NoErrEvents (similarStep verification) := by
  unfold similarStep
  split
  · exact noerr_bind (noerr_emit_mk _ "thinking" _ (by decide)) fun _ => noerr_similarLoop _
  · exact noerr_pure ()

theorem noerr_verifiedStep (w : String) (verification : CompanyVerification) :
    NoErrEvents (verifiedStep w verification) := by
  unfold verifiedStep
  split
  · refine noerr_bind (noerr_emit_mk _ "decision" _ (by decide)) fun _ => ?_
    exact noerr_bind (noerr_emit_mk _ "decision" _ (by decide)) fun _ => noerr_pure _
  · refine noerr_bind (noerr_emit_mk _ "thinking" _ (by decide)) fun _ => ?_
    split
    · exact noerr_pure _
    · exact noerr_pure _

theorem noerr_verifyYes (env : Env) (c w q : String) : NoErrEvents (verifyYes env c w q) := by
  unfold verifyYes
  refine noerr_bind (noerr_emit_mk _ "thinking" _ (by decide)) fun _ => ?_
  refine noerr_bind (noerr_emit_mk _ "tool_call" _ (by decide)) fun _ => ?_
  refine noerr_bind (noerr_emit_mk _ "tool_call" _ (by decide)) fun _ => ?_
  refine noerr_bind (noerr_emit_mk _ "tool_call" _ (by decide)) fun _ => ?_
  refine noerr_bind (noerr_recordVerify _ _) fun _ => ?_
  refine noerr_bind (noerr_liftE _) fun vr => ?_
  refine noerr_bind (noerr_emit_mk _ "tool_result" _ (by decide)) fun _ => ?_
  exact noerr_bind (noerr_similarStep _) fun _ => noerr_verifiedStep _ _

theorem noerr_verifyNo (c q : String) : NoErrEvents (verifyNo c q) := by
  unfold verifyNo
  refine noerr_bind (noerr_emit_mk _ "thinking" _ (by decide)) fun _ => ?_
  exact noerr_bind (noerr_emit_mk _ "thinking" _ (by decide)) fun _ => noerr_pure _

theorem noerr_verifyStep (env : Env) (c : String) (w : Option String) (q : String) :
    NoErrEvents (verifyStep env c w q) := by
  unfold verifyStep
  rcases w with _ | w
  · exact noerr_verifyNo c q
  · show NoErrEvents (if w ≠ "" then verifyYes env c w q else verifyNo c q)
    rcases eq_or_ne w "" with hw | hw
    · rw [if_neg (fun h2 => h2 hw)]
      exact noerr_verifyNo c q
    · rw [if_pos hw]
      exact noerr_verifyYes env c w q

theorem noerr_routeStep (env : Env) (c : String) (w : Option String) (q : String)
    (ctx : Option String) : NoErrEvents (routeStep env c w q ctx) := by
  unfold routeStep
  refine noerr_bind (noerr_emit_mk _ "thinking" _ (by decide)) fun _ => ?_
  refine noerr_bind (noerr_recordRoute _ _ _ _) fun _ => ?_
  refine noerr_bind (noerr_liftE _) fun result => ?_
  refine noerr_bind (noerr_emit_mk _ "thinking" _ (by decide)) fun _ => ?_
  refine noerr_bind (noerr_emit_mk _ "decision" _ (by decide)) fun _ => ?_
  exact noerr_bind (noerr_emit_mk _ "decision" _ (by decide)) fun _ => noerr_pure _

theorem noerr_announceStep (agent_name : String) (ctx : Option String) :
    NoErrEvents (announceStep agent_name ctx) := by
  unfold announceStep
  refine noerr_bind (noerr_emit_mk _ "thinking" _ (by decide)) fun _ => ?_
  rcases ctx with _ | c
  · exact noerr_pure _
  · show NoErrEvents (if c ≠ "" then _ else _)
    split
    · exact noerr_bind (noerr_emit_mk _ "thinking" _ (by decide)) fun _ => noerr_pure _
    · exact noerr_pure _

theorem noerr_resultsLoop (rs : List RawDict) (j : Nat) : NoErrEvents (resultsLoop rs j) := by
  induction rs generalizing j with
  | nil => exact noerr_pure ()
  | cons r rest ih =>
    refine noerr_bind (noerr_emit_mk _ "tool_result" _ (by decide)) fun _ => ?_
    refine noerr_bind (noerr_emit_mk _ "tool_result" _ (by decide)) fun _ => ?_
    exact noerr_bind (noerr_emit_mk _ "tool_result" _ (by decide)) fun _ => ih _

theorem noerr_searchLoop (env : Env) (qs : List String) (idx : Nat) :
    NoErrEvents (searchLoop env qs idx) := by
  induction qs generalizing idx with
  | nil => exact noerr_pure _
  | cons q rest ih =>
    refine noerr_bind (noerr_emit_mk _ "tool_call" _ (by decide)) fun _ => ?_
    refine noerr_bind (noerr_emit_mk _ "thinking" _ (by decide)) fun _ => ?_
    refine noerr_bind (noerr_recordSearch _ _) fun _ => ?_
    refine noerr_bind (noerr_liftE _) fun search_results => ?_
    refine noerr_bind (noerr_emit_mk _ "tool_result" _ (by decide)) fun _ => ?_
    refine noerr_bind (noerr_resultsLoop _ _) fun _ => ?_
    exact noerr_bind (ih _) fun more => noerr_pure _

theorem noerr_finishStep (env : Env) (agent_name : String) (fn : SynthFn)
    (c : String) (results : List RawDict) (ctx : Option String) :
    NoErrEvents (finishStep env agent_name fn c results ctx) := by
  unfold finishStep
  refine noerr_bind (noerr_emit_mk _ "tool_result" _ (by decide)) fun _ => ?_
  refine noerr_bind (noerr_emit_mk _ "thinking" _ (by decide)) fun _ => ?_
  refine noerr_bind (noerr_recordSynth _ _ _ _) fun _ => ?_
  refine noerr_bind (noerr_liftE _) fun answer => ?_
  exact noerr_emit_mk _ "final_answer" _ (by decide)

theorem noerr_mainBody (req : UserRequest) (env : Env) : NoErrEvents (mainBody req env) := by
  unfold mainBody
  refine noerr_bind (noerr_verifyStep _ _ _ _) fun ctx => ?_
  refine noerr_bind (noerr_routeStep _ _ _ _ _) fun result => ?_
  refine noerr_bind (noerr_announceStep _ _) fun _ => ?_
  refine noerr_bind (noerr_searchLoop _ _ _) fun all_search_results => ?_
  exact noerr_finishStep _ _ _ _ _ _

/-! ## Step characterizations: values and trace updates -/

theorem similarLoop_char (l : List String) (s : PipeState) :
    (similarLoop l s).1 = Except.ok () ∧ (similarLoop l s).2.trace = s.trace := by
  induction l generalizing s with
  | nil => exact ⟨rfl, rfl⟩
  | cons x rest ih =>
    simp only [similarLoop, bind_app, emit_app]
    exact ⟨(ih _).1, (ih _).2⟩

theorem similarStep_char (verification : CompanyVerification) (s : PipeState) :
    (similarStep verification s).1 = Except.ok () ∧
    (similarStep verification s).2.trace = s.trace := by
  unfold similarStep
  split
  · simp only [bind_app, emit_app]
    exact ⟨(similarLoop_char _ _).1, (similarLoop_char _ _).2⟩
  · exact ⟨rfl, rfl⟩

theorem verifiedStep_char (w : String) (verification : CompanyVerification) (s : PipeState) :
    (verifiedStep w verification s).1 = Except.ok (ctxValue verification) ∧
    (verifiedStep w verification s).2.trace = s.trace := by
  unfold verifiedStep ctxValue
  split
  · simp only [bind_app, emit_app, pure_app]
    refine ⟨?_, ?_⟩ <;> first | rfl | trivial
  · simp only [bind_app, emit_app, pure_app]
    split
    · refine ⟨?_, ?_⟩ <;> first | rfl | trivial
    · refine ⟨?_, ?_⟩ <;> first | rfl | trivial

theorem verifyYes_char (env : Env) (c w q : String) (s : PipeState) :
    (verifyYes env c w q s).1 = verifyValue env c w ∧
    (verifyYes env c w q s).2.trace =
      { s.trace with verifyCalls := s.trace.verifyCalls ++ [⟨c, w⟩] } := by
  unfold verifyYes verifyValue
  rcases hvc : verify_company c w env.verifySearchA env.verifySearchB env.verifyChat with e | vr
  · simp only [bind_app, emit_app, recordVerify_app, liftE_app, hvc]
    refine ⟨?_, ?_⟩ <;> first | rfl | trivial
  · rcases vr with ⟨verification, results⟩
    simp only [bind_app, emit_app, recordVerify_app, liftE_app, hvc]
    rw [eta_ok _ _ _ (similarStep_char verification _).1]
    dsimp only
    rw [eta_ok _ _ _ (verifiedStep_char w verification _).1]
    dsimp only
    refine ⟨rfl, ?_⟩
    rw [(verifiedStep_char w verification _).2, (similarStep_char verification _).2]

theorem verifyNo_char (c q : String) (s : PipeState) :
    (verifyNo c q s).1 = Except.ok none ∧ (verifyNo c q s).2.trace = s.trace := by
  unfold verifyNo
  simp only [bind_app, emit_app, pure_app]
  refine ⟨?_, ?_⟩ <;> first | rfl | trivial

theorem verifyStep_char (env : Env) (c : String) (website : Option String) (q : String)
    (s : PipeState) :
    (verifyStep env c website q s).1 =
      (match website with
       | some w => if w ≠ "" then verifyValue env c w else Except.ok none
       | none => Except.ok none) ∧
    (verifyStep env c website q s).2.trace =
      { s.trace with verifyCalls := s.trace.verifyCalls ++
          (match website with
           | some w => if w ≠ "" then [⟨c, w⟩] else []
           | none => []) } := by
  unfold verifyStep
  rcases website with _ | w
  · dsimp only
    refine ⟨(verifyNo_char c q s).1, ?_⟩
    rw [(verifyNo_char c q s).2]
    simp
  · dsimp only
    rcases eq_or_ne w "" with hw | hw
    · subst hw
      rw [if_neg (by decide), if_neg (by decide), if_neg (by decide)]
      refine ⟨(verifyNo_char c q s).1, ?_⟩
      rw [(verifyNo_char c q s).2]
      simp
    · rw [if_pos hw, if_pos hw, if_pos hw]
      exact verifyYes_char env c w q s

theorem routeStep_char (env : Env) (c : String) (w : Option String) (q : String)
    (ctx : Option String) (s : PipeState) :
    (routeStep env c w q ctx s).1 = route c w q ctx env.routeChat ∧
    (routeStep env c w q ctx s).2.trace =
      { s.trace with routeCalls := s.trace.routeCalls ++ [⟨c, w, q, ctx⟩] } := by
  unfold routeStep
  rcases hr : route c w q ctx env.routeChat with e | result <;>
    simp only [bind_app, emit_app, recordRoute_app, liftE_app, pure_app, hr] <;>
    refine ⟨?_, ?_⟩ <;> first | rfl | trivial

theorem announceStep_char (agent_name : String) (ctx : Option String) (s : PipeState) :
    (announceStep agent_name ctx s).1 = Except.ok () ∧
    (announceStep agent_name ctx s).2.trace = s.trace := by
  unfold announceStep
  rcases ctx with _ | c
  · simp only [bind_app, emit_app, pure_app]
    refine ⟨?_, ?_⟩ <;> first | rfl | trivial
  · simp only [bind_app, emit_app, pure_app]
    split
    · refine ⟨?_, ?_⟩ <;> first | rfl | trivial
    · refine ⟨?_, ?_⟩ <;> first | rfl | trivial

theorem resultsLoop_char (rs : List RawDict) (j : Nat) (s : PipeState) :
    (resultsLoop rs j s).1 = Except.ok () ∧ (resultsLoop rs j s).2.trace = s.trace := by
  induction rs generalizing j s with
  | nil => exact ⟨rfl, rfl⟩
  | cons r rest ih =>
    simp only [resultsLoop, bind_app, emit_app]
    exact ⟨(ih _ _).1, (ih _ _).2⟩

theorem finishStep_char (env : Env) (agent_name : String) (fn : SynthFn)
    (c : String) (results : List RawDict) (ctx : Option String) (s : PipeState) :
    (finishStep env agent_name fn c results ctx s).1 =
      (match fn c results ctx env.synthChat with
       | Except.ok _ => Except.ok ()
       | Except.error e => Except.error e) ∧
    (finishStep env agent_name fn c results ctx s).2.trace =
      { s.trace with synthCalls := s.trace.synthCalls ++ [⟨agent_name, c, results, ctx⟩] } := by
  unfold finishStep
  rcases hf : fn c results ctx env.synthChat with e | answer <;>
    simp only [bind_app, emit_app, recordSynth_app, liftE_app, pure_app, hf] <;>
    refine ⟨?_, ?_⟩ <;> first | rfl | trivial

theorem searchTail_char (m : PipeM (List RawDict)) (s2 : PipeState) (srs : List RawDict)
    (tr : Trace) (q : String) (rest : List String)
    (hs2 : s2.trace = { tr with searchCalls := tr.searchCalls ++ [⟨q, 3⟩] })
    (H : ∃ Δ, (m s2).2.trace = { s2.trace with searchCalls := s2.trace.searchCalls ++ Δ } ∧
         Δ.length ≤ rest.length ∧ (∀ call ∈ Δ, call.max_results = 3) ∧
         ∃ t, Δ.map SearchCall.query ++ t = rest) :
    ∃ Δ, ((m >>= fun a => pure (srs ++ a)) s2).2.trace =
        { tr with searchCalls := tr.searchCalls ++ Δ } ∧
      Δ.length ≤ (q :: rest).length ∧ (∀ call ∈ Δ, call.max_results = 3) ∧
      ∃ t, Δ.map SearchCall.query ++ t = q :: rest := by
  rcases H with ⟨Δ, htr, hlen, h3, t, hpre⟩
  refine ⟨⟨q, 3⟩ :: Δ, ?_, by simpa using hlen, ?_, ⟨t, by simp [hpre]⟩⟩
  · simp only [bind_app]
    rcases hm : m s2 with ⟨rv, s3⟩
    rw [hm] at htr
    dsimp only at htr
    rcases rv with e | a
    · dsimp only
      rw [htr, hs2]
      simp
    · simp only [pure_app]
      rw [htr, hs2]
      simp
  · intro call hc
    rcases List.mem_cons.mp hc with hc | hc
    · rw [hc]
    · exact h3 call hc

theorem searchTail_val (m : PipeM (List RawDict)) (s2 : PipeState) (srs : List RawDict)
    (q : String) (rest : List String) (B : Prop)
    (H : ∀ l, (m s2).1 = Except.ok l → B → l.length ≤ 3 * rest.length)
    (hsrs : B → srs.length ≤ 3) :
    ∀ l, ((m >>= fun a => pure (srs ++ a)) s2).1 = Except.ok l →
      B → l.length ≤ 3 * (q :: rest).length := by
  intro l hl hB
  simp only [bind_app] at hl
  rcases hm : m s2 with ⟨rv, s3⟩
  rw [hm] at hl H
  rcases rv with e | a
  · cases hl
  · simp only [pure_app] at hl
    have hla : srs ++ a = l := by
      simpa using hl
    have h1 := H a rfl hB
    have h2 := hsrs hB
    rw [← hla]
    simp only [List.length_append, List.length_cons]
    calc srs.length + a.length ≤ 3 + 3 * rest.length := by omega
    _ ≤ 3 * (rest.length + 1) := by omega

theorem searchLoop_char (env : Env) (qs : List String) (idx : Nat) (s : PipeState) :
    (∃ Δ, (searchLoop env qs idx s).2.trace =
        { s.trace with searchCalls := s.trace.searchCalls ++ Δ } ∧
      Δ.length ≤ qs.length ∧
      (∀ call ∈ Δ, call.max_results = 3) ∧
      (∃ t, Δ.map SearchCall.query ++ t = qs)) ∧
    (∀ l, (searchLoop env qs idx s).1 = Except.ok l →
      (∀ i raws, env.searchApi i = Except.ok raws → raws.length ≤ 3) →
      l.length ≤ 3 * qs.length) := by
  induction qs generalizing idx s with
  | nil =>
    constructor
    · refine ⟨[], ?_, by simp, by simp, ⟨[], by simp⟩⟩
      simp [searchLoop, pure_app]
    · intro l hl _
      simp only [searchLoop, pure_app] at hl
      cases hl
      simp
  | cons q rest ih =>
    simp only [searchLoop, bind_app, emit_app, recordSearch_app, liftE_app]
    rcases happ : env.searchApi idx with e | raws
    · rw [show search q 3 (Except.error e) = Except.error e from rfl]
      dsimp only
      constructor
      · refine ⟨[⟨q, 3⟩], by simp, by simp, ?_, ⟨rest, by simp⟩⟩
        intro call hc
        simp only [List.mem_singleton] at hc
        rw [hc]
      · intro l hl _
        cases hl
    · rw [show search q 3 (Except.ok raws) = Except.ok (raws.map searchNorm) from rfl]
      dsimp only
      rw [eta_ok _ _ _ (resultsLoop_char _ _ _).1]
      dsimp only
      simp only [← bind_app]
      constructor
      · apply searchTail_char
        · rw [(resultsLoop_char _ _ _).2]
        · exact (ih (idx + 1) _).1
      · apply searchTail_val
        · intro l2 hl2 hB2
          exact (ih (idx + 1) _).2 l2 hl2 hB2
        · intro hB2
          simpa using hB2 idx raws happ

/-- Master characterization of one `run_pipeline` body execution: no
error-kind event is yielded inside the `try` block, a successful body ends
with the done event, and the call log is as the five-step sequence
prescribes. -/
theorem run_spec (req : UserRequest) (env : Env) :
    (∀ e ∈ (pipelineRun req env).2.events, e.event ≠ "error") ∧
    ((pipelineRun req env).1 = Except.ok () →
      (pipelineRun req env).2.events.getLast? =
        some (make_event "System" "done" "✅ Analysis complete!")) ∧
    (pipelineRun req env).2.trace.verifyCalls =
      (match req.website with
       | some w => if w ≠ "" then [⟨req.company_name, w⟩] else []
       | none => []) ∧
    (pipelineRun req env).2.trace.routeCalls =
      (match verifyCtx req env with
       | Except.ok ctx => [⟨req.company_name, req.website, req.query, ctx⟩]
       | Except.error _ => []) ∧
    (pipelineRun req env).2.trace.searchCalls.length ≤ 2 ∧
    (∀ call ∈ (pipelineRun req env).2.trace.searchCalls, call.max_results = 3) ∧
    (∀ rr, routeOutcome req env = Except.ok rr →
      ∃ t, (pipelineRun req env).2.trace.searchCalls.map SearchCall.query ++ t =
        rr.search_queries.take 2) ∧
    (∀ call ∈ (pipelineRun req env).2.trace.synthCalls,
      call.company = req.company_name ∧
      (∃ ctx, verifyCtx req env = Except.ok ctx ∧ call.ctx = ctx) ∧
      (∃ rr, routeOutcome req env = Except.ok rr ∧ call.agent = (dispatch rr.intent).1) ∧
      ((∀ i raws, env.searchApi i = Except.ok raws → raws.length ≤ 3) →
        call.results.length ≤ 6)) ∧
    (pipelineRun req env).2.trace.synthCalls.length ≤ 1 ∧
    ((pipelineRun req env).1 = Except.ok () →
      (pipelineRun req env).2.trace.routeCalls.length = 1 ∧
      (pipelineRun req env).2.trace.synthCalls.length = 1) := by
  have hne0 : ∀ e ∈ initState.events, e.event ≠ "error" := by
    intro e he
    simp [initState] at he
  unfold pipelineRun pipelineBody mainBody
  simp only [bind_app]
  rcases hv : verifyStep env req.company_name req.website req.query initState with ⟨vval, s1⟩
  have hvc := verifyStep_char env req.company_name req.website req.query initState
  rw [hv] at hvc
  obtain ⟨hv1, hv2⟩ := hvc
  dsimp only at hv1 hv2
  have hvctx : verifyCtx req env = vval := by
    rw [hv1]
    rfl
  have hne1 : ∀ e ∈ s1.events, e.event ≠ "error" := by
    have h := noerr_verifyStep env req.company_name req.website req.query initState hne0
    rw [hv] at h
    exact h
  rcases vval with e | ctx
  · dsimp only
    refine ⟨hne1, ?_, ?_, ?_, ?_, ?_, ?_, ?_, ?_, ?_⟩
    · intro h; simp at h
    · rw [hv2]; simp [initState]
    · rw [hv2, hvctx]; simp [initState]
    · rw [hv2]; simp [initState]
    · rw [hv2]; intro call hc; simp [initState] at hc
    · intro rr hrr
      unfold routeOutcome at hrr
      rw [hvctx] at hrr
      simp at hrr
    · rw [hv2]; intro call hc; simp [initState] at hc
    · rw [hv2]; simp [initState]
    · intro h; simp at h
  · dsimp only
    rcases hr : routeStep env req.company_name req.website req.query ctx s1 with ⟨rval, s2⟩
    have hrc := routeStep_char env req.company_name req.website req.query ctx s1
    rw [hr] at hrc
    obtain ⟨hr1, hr2⟩ := hrc
    dsimp only at hr1 hr2
    have hroute : routeOutcome req env = rval := by
      unfold routeOutcome
      rw [hvctx]
      exact hr1.symm
    have hne2 : ∀ e ∈ s2.events, e.event ≠ "error" := by
      have h := noerr_routeStep env req.company_name req.website req.query ctx s1 hne1
      rw [hr] at h
      exact h
    rcases rval with e | result
    · dsimp only
      refine ⟨hne2, ?_, ?_, ?_, ?_, ?_, ?_, ?_, ?_, ?_⟩
      · intro h; simp at h
      · rw [hr2, hv2]; simp [initState]
      · rw [hr2, hv2, hvctx]; simp [initState]
      · rw [hr2, hv2]; simp [initState]
      · rw [hr2, hv2]; intro call hc; simp [initState] at hc
      · intro rr hrr
        rw [hroute] at hrr
        simp at hrr
      · rw [hr2, hv2]; intro call hc; simp [initState] at hc
      · rw [hr2, hv2]; simp [initState]
      · intro h; simp at h
    · dsimp only
      rcases ha : announceStep (dispatch result.intent).1 ctx s2 with ⟨aval, s3⟩
      have hac := announceStep_char (dispatch result.intent).1 ctx s2
      rw [ha] at hac
      obtain ⟨ha1, ha2⟩ := hac
      dsimp only at ha1 ha2
      subst ha1
      dsimp only
      have hne3 : ∀ e ∈ s3.events, e.event ≠ "error" := by
        have h := noerr_announceStep (dispatch result.intent).1 ctx s2 hne2
        rw [ha] at h
        exact h
      rcases hs : searchLoop env (result.search_queries.take 2) 0 s3 with ⟨sval, s4⟩
      have hsc := searchLoop_char env (result.search_queries.take 2) 0 s3
      rw [hs] at hsc
      obtain ⟨⟨Δ, hΔtr, hΔlen, hΔ3, t, hΔpre⟩, hval⟩ := hsc
      dsimp only at hΔtr hval
      have hΔlen2 : Δ.length ≤ 2 := by
        refine hΔlen.trans ?_
        simp [List.length_take]
      have hne4 : ∀ e ∈ s4.events, e.event ≠ "error" := by
        have h := noerr_searchLoop env (result.search_queries.take 2) 0 s3 hne3
        rw [hs] at h
        exact h
      have hs4tr : s4.trace.searchCalls = Δ ∧ s4.trace.verifyCalls = s1.trace.verifyCalls ∧
          s4.trace.routeCalls = s2.trace.routeCalls ∧ s4.trace.synthCalls = [] := by
        rw [hΔtr, ha2, hr2, hv2]
        refine ⟨by simp [initState], by simp [initState], by simp [initState], by simp [initState]⟩
      rcases sval with e | all_results
      · dsimp only
        refine ⟨hne4, ?_, ?_, ?_, ?_, ?_, ?_, ?_, ?_, ?_⟩
        · intro h; simp at h
        · rw [hs4tr.2.1, hv2]; simp [initState]
        · rw [hs4tr.2.2.1, hr2, hv2, hvctx]; simp [initState]
        · rw [hs4tr.1]; exact hΔlen2
        · rw [hs4tr.1]; exact hΔ3
        · intro rr hrr
          rw [hroute] at hrr
          cases hrr
          exact ⟨t, by rw [hs4tr.1]; exact hΔpre⟩
        · rw [hs4tr.2.2.2]; intro call hc; simp at hc
        · rw [hs4tr.2.2.2]; simp
        · intro h; simp at h
      · dsimp only
        rcases hf : finishStep env (dispatch result.intent).1 (dispatch result.intent).2
            req.company_name all_results ctx s4 with ⟨fval, s5⟩
        have hfc := finishStep_char env (dispatch result.intent).1 (dispatch result.intent).2
            req.company_name all_results ctx s4
        rw [hf] at hfc
        obtain ⟨hf1, hf2⟩ := hfc
        dsimp only at hf1 hf2
        have hne5 : ∀ e ∈ s5.events, e.event ≠ "error" := by
          have h := noerr_finishStep env (dispatch result.intent).1 (dispatch result.intent).2
              req.company_name all_results ctx s4 hne4
          rw [hf] at h
          exact h
        have hsynth : s5.trace.synthCalls =
            [⟨(dispatch result.intent).1, req.company_name, all_results, ctx⟩] := by
          rw [hf2, hs4tr.2.2.2]
          simp
        have hsmem : ∀ call ∈ s5.trace.synthCalls,
            call.company = req.company_name ∧
            (∃ ctx2, verifyCtx req env = Except.ok ctx2 ∧ call.ctx = ctx2) ∧
            (∃ rr, routeOutcome req env = Except.ok rr ∧ call.agent = (dispatch rr.intent).1) ∧
            ((∀ i raws, env.searchApi i = Except.ok raws → raws.length ≤ 3) →
              call.results.length ≤ 6) := by
          intro call hc
          rw [hsynth] at hc
          simp only [List.mem_singleton] at hc
          subst hc
          refine ⟨rfl, ⟨ctx, hvctx, rfl⟩, ⟨result, hroute, rfl⟩, ?_⟩
          intro hbound
          have h6 := hval all_results rfl hbound
          have : (result.search_queries.take 2).length ≤ 2 := by
            simp [List.length_take]
          dsimp only at h6 ⊢
          omega
        have hother : s5.trace.verifyCalls = s1.trace.verifyCalls ∧
            s5.trace.routeCalls = s2.trace.routeCalls ∧ s5.trace.searchCalls = Δ := by
          rw [hf2]
          exact ⟨hs4tr.2.1, hs4tr.2.2.1, hs4tr.1⟩
        rcases fval with e | u
        · dsimp only
          refine ⟨hne5, ?_, ?_, ?_, ?_, ?_, ?_, hsmem, ?_, ?_⟩
          · intro h; simp at h
          · rw [hother.1, hv2]; simp [initState]
          · rw [hother.2.1, hr2, hv2, hvctx]; simp [initState]
          · rw [hother.2.2]; exact hΔlen2
          · rw [hother.2.2]; exact hΔ3
          · intro rr hrr
            rw [hroute] at hrr
            cases hrr
            exact ⟨t, by rw [hother.2.2]; exact hΔpre⟩
          · rw [hsynth]; simp
          · intro h; simp at h
        · simp only [emit_app]
          refine ⟨?_, ?_, ?_, ?_, ?_, ?_, ?_, hsmem, ?_, ?_⟩
          · intro e he
            rcases List.mem_append.mp he with he | he
            · exact hne5 e he
            · simp only [List.mem_singleton] at he
              subst he
              decide
          · intro _
            simp
          · rw [hother.1, hv2]; simp [initState]
          · rw [hother.2.1, hr2, hv2, hvctx]; simp [initState]
          · rw [hother.2.2]; exact hΔlen2
          · rw [hother.2.2]; exact hΔ3
          · intro rr hrr
            rw [hroute] at hrr
            cases hrr
            exact ⟨t, by rw [hother.2.2]; exact hΔpre⟩
          · rw [hsynth]; simp
          · intro _
            constructor
            · rw [hother.2.1, hr2, hv2]; simp [initState]
            · rw [hsynth]; simp

/-! ## Bridging lemmas between `run_pipeline` and the body run -/

theorem run_pipeline_trace (req : UserRequest) (env : Env) :
    (run_pipeline req env).2 = (pipelineRun req env).2.trace := by
  unfold run_pipeline
  rcases pipelineRun req env with ⟨out, S⟩
  rcases out with e | u <;> rfl

/-- C1: for every request and environment of external outcomes, the event
stream produced by `run_pipeline` ends (its `getLast?`) with the terminal
`System`/`done` completion event when no step raises, and with a
`System`/`error` event (the formatted traceback) when a step raises; being
the last element of the returned list, no event follows it. -/
theorem C1_stream_terminal (req : UserRequest) (env : Env) :
    (run_pipeline req env).1.getLast? =
      some (match (pipelineRun req env).1 with
            | Except.ok _ => make_event "System" "done" "✅ Analysis complete!"
            | Except.error e => make_event "System" "error" (format_exc e)) := by
  unfold run_pipeline
  rcases hP : pipelineRun req env with ⟨out, S⟩
  rcases out with e | u
  · dsimp only
    rw [show [make_event "System" "error" ("❌ Error: " ++ e),
              make_event "System" "error" (format_exc e)] =
          make_event "System" "error" ("❌ Error: " ++ e) ::
            [make_event "System" "error" (format_exc e)] from rfl,
        List.getLast?_append_cons]
    rfl
  · dsimp only
    have h2 := (run_spec req env).2.1
    rw [hP] at h2
    dsimp only at h2
    cases u
    exact h2 rfl

/-- C2 counterexample: with the router LLM call raising `boom`, the stream
contains exactly two error-kind events (the message and the traceback), not
exactly one. -/
theorem C2_counterexample :
    (pipelineRun reqC2 envC2).1 = Except.error "boom" ∧
    (run_pipeline reqC2 envC2).1.countP (fun ev => ev.event == "error") = 2 := by
  constructor <;> rfl

/-- C2 (amended): for every request in which some pipeline step raises an
exception, `run_pipeline` catches it at the top level and surfaces it as
exactly two terminal error events appended to the stream — the error
message and the formatted traceback — and no step is retried (at most one
verify, route and synthesize call, at most two search calls). -/
theorem C2_error_events (req : UserRequest) (env : Env) (e : String)
    (h : (pipelineRun req env).1 = Except.error e) :
    (run_pipeline req env).1 =
      (pipelineRun req env).2.events ++
        [make_event "System" "error" ("❌ Error: " ++ e),
         make_event "System" "error" (format_exc e)] ∧
    (run_pipeline req env).1.countP (fun ev => ev.event == "error") = 2 ∧
    (run_pipeline req env).2.verifyCalls.length ≤ 1 ∧
    (run_pipeline req env).2.routeCalls.length ≤ 1 ∧
    (run_pipeline req env).2.searchCalls.length ≤ 2 ∧
    (run_pipeline req env).2.synthCalls.length ≤ 1 := by
  have hspec := run_spec req env
  have htr := run_pipeline_trace req env
  unfold run_pipeline at htr ⊢
  rcases hP : pipelineRun req env with ⟨out, S⟩
  rw [hP] at h hspec htr
  dsimp only at h hspec htr
  subst h
  dsimp only
  have hzero : S.events.countP (fun ev => ev.event == "error") = 0 := by
    rw [List.countP_eq_zero]
    intro a ha
    have := hspec.1 a ha
    simpa using this
  refine ⟨rfl, ?_, ?_, ?_, ?_, ?_⟩
  · rw [List.countP_append, hzero]
    rfl
  · rw [hspec.2.2.1]
    rcases req.website with _ | w
    · simp
    · dsimp only
      split <;> simp
  · rw [hspec.2.2.2.1]
    rcases verifyCtx req env with e2 | ctx <;> simp
  · exact hspec.2.2.2.2.1
  · exact hspec.2.2.2.2.2.2.2.2.1

theorem C2_error_events_witness :
    (pipelineRun reqC2 envC2).1 = Except.error "boom" ∧
    ((run_pipeline reqC2 envC2).1 =
      (pipelineRun reqC2 envC2).2.events ++
        [make_event "System" "error" ("❌ Error: " ++ "boom"),
         make_event "System" "error" (format_exc "boom")] ∧
     (run_pipeline reqC2 envC2).1.countP (fun ev => ev.event == "error") = 2 ∧
     (run_pipeline reqC2 envC2).2.verifyCalls.length ≤ 1 ∧
     (run_pipeline reqC2 envC2).2.routeCalls.length ≤ 1 ∧
     (run_pipeline reqC2 envC2).2.searchCalls.length ≤ 2 ∧
     (run_pipeline reqC2 envC2).2.synthCalls.length ≤ 1) :=
  ⟨rfl, C2_error_events reqC2 envC2 "boom" rfl⟩

/-- C3: for every request and environment in which the search provider
honors the requested result cap, the pipeline executes at most the first
two planned search queries, requests `max_results = 3` on each, and the
specialist synthesize call receives at most six collected results. -/
theorem C3_search_budget (req : UserRequest) (env : Env)
    (hprov : ∀ i raws, env.searchApi i = Except.ok raws → raws.length ≤ 3) :
    (run_pipeline req env).2.searchCalls.length ≤ 2 ∧
    (∀ call ∈ (run_pipeline req env).2.searchCalls, call.max_results = 3) ∧
    (∀ rr, routeOutcome req env = Except.ok rr →
      ∃ t, ((run_pipeline req env).2.searchCalls.map SearchCall.query) ++ t =
        rr.search_queries.take 2) ∧
    (∀ call ∈ (run_pipeline req env).2.synthCalls, call.results.length ≤ 6) := by
  rw [run_pipeline_trace]
  refine ⟨(run_spec req env).2.2.2.2.1, (run_spec req env).2.2.2.2.2.1,
    (run_spec req env).2.2.2.2.2.2.1, ?_⟩
  intro call hc
  exact ((run_spec req env).2.2.2.2.2.2.2.1 call hc).2.2.2 hprov

theorem C3_search_budget_witness :
    (∀ i raws, envC3.searchApi i = Except.ok raws → raws.length ≤ 3) ∧
    ((run_pipeline reqC3 envC3).2.searchCalls.length ≤ 2 ∧
     (∀ call ∈ (run_pipeline reqC3 envC3).2.searchCalls, call.max_results = 3) ∧
     (∀ rr, routeOutcome reqC3 envC3 = Except.ok rr →
       ∃ t, ((run_pipeline reqC3 envC3).2.searchCalls.map SearchCall.query) ++ t =
         rr.search_queries.take 2) ∧
     (∀ call ∈ (run_pipeline reqC3 envC3).2.synthCalls, call.results.length ≤ 6)) := by
  have hb : ∀ i raws, envC3.searchApi i = Except.ok raws → raws.length ≤ 3 := by
    intro i raws h
    injection h with h2
    rw [← h2]
    decide
  exact ⟨hb, C3_search_budget reqC3 envC3 hb⟩

/-- C4: for every request whose website is absent, `verify_company` is
never called (no verify call is logged, for any environment), and the
company context stays `None`: every logged route call and synthesize call
carries `ctx = none`; on a successful run both calls happen (once each). -/
theorem C4_no_website (req : UserRequest) (env : Env) (h : req.website = none) :
    (run_pipeline req env).2.verifyCalls = [] ∧
    (∀ call ∈ (run_pipeline req env).2.routeCalls, call.ctx = none) ∧
    (∀ call ∈ (run_pipeline req env).2.synthCalls, call.ctx = none) ∧
    ((pipelineRun req env).1 = Except.ok () →
      (run_pipeline req env).2.routeCalls =
        [⟨req.company_name, none, req.query, none⟩] ∧
      (run_pipeline req env).2.synthCalls.length = 1) := by
  have hctx : verifyCtx req env = Except.ok none := by
    unfold verifyCtx
    rw [h]
  have hspec := run_spec req env
  rw [run_pipeline_trace]
  refine ⟨?_, ?_, ?_, ?_⟩
  · rw [hspec.2.2.1, h]
  · intro call hc
    rw [hspec.2.2.2.1, hctx] at hc
    simp only [List.mem_singleton] at hc
    rw [hc]
  · intro call hc
    obtain ⟨_, ⟨ctx2, hc2, hc3⟩, _, _⟩ := hspec.2.2.2.2.2.2.2.1 call hc
    rw [hctx] at hc2
    injection hc2 with h4
    rw [hc3, ← h4]
  · intro hok
    constructor
    · rw [hspec.2.2.2.1, hctx, h]
    · exact (hspec.2.2.2.2.2.2.2.2.2 hok).2

theorem C4_no_website_witness :
    reqC4.website = none ∧
    ((run_pipeline reqC4 envC4).2.verifyCalls = [] ∧
     (∀ call ∈ (run_pipeline reqC4 envC4).2.routeCalls, call.ctx = none) ∧
     (∀ call ∈ (run_pipeline reqC4 envC4).2.synthCalls, call.ctx = none) ∧
     ((pipelineRun reqC4 envC4).1 = Except.ok () →
       (run_pipeline reqC4 envC4).2.routeCalls =
         [⟨reqC4.company_name, none, reqC4.query, none⟩] ∧
       (run_pipeline reqC4 envC4).2.synthCalls.length = 1)) :=
  ⟨rfl, C4_no_website reqC4 envC4 rfl⟩

/-- C9: for every run whose router result carries the intent enum value
`unknown` (not one of the three mapped categories), the dispatch map
defaults to the Business Agent and its `synthesize`, and every logged
synthesize call is made under the agent name `Business Agent`. -/
theorem C9_unknown_default (req : UserRequest) (env : Env) (rr : RouterResult)
    (h1 : routeOutcome req env = Except.ok rr) (h2 : rr.intent = IntentType.unknown) :
    dispatch rr.intent = ("Business Agent", business.synthesize) ∧
    ∀ call ∈ (run_pipeline req env).2.synthCalls, call.agent = "Business Agent" := by
  constructor
  · rw [h2]
    rfl
  · intro call hc
    rw [run_pipeline_trace] at hc
    obtain ⟨_, _, ⟨rr2, hrr2, hag⟩, _⟩ := (run_spec req env).2.2.2.2.2.2.2.1 call hc
    rw [h1] at hrr2
    injection hrr2 with h3
    rw [hag, ← h3, h2]
    rfl

set_option maxRecDepth 4000 in
theorem C9_unknown_default_witness :
    routeOutcome reqC9 envC9 = Except.ok rrC9 ∧
    rrC9.intent = IntentType.unknown ∧
    (dispatch rrC9.intent = ("Business Agent", business.synthesize) ∧
     ∀ call ∈ (run_pipeline reqC9 envC9).2.synthCalls, call.agent = "Business Agent") := by
  have h1 : routeOutcome reqC9 envC9 = Except.ok rrC9 := by rfl
  exact ⟨h1, rfl, C9_unknown_default reqC9 envC9 rrC9 h1 rfl⟩

/-! ## Helper lemmas about the Except monad and search dicts -/

theorem ebind_ok {ε α β : Type} (a : α) (f : α → Except ε β) :
    (Except.ok a >>= f) = f a := rfl

theorem ebind_err {ε α β : Type} (e : ε) (f : α → Except ε β) :
    ((Except.error e : Except ε α) >>= f) = Except.error e := rfl

theorem jIndex_of_jGet {d : JValue} {k : String} {v : JValue}
    (h : jGet d k = some v) : jIndex d k = Except.ok v := by
  rcases d with _ | _ | _ | _ | _ | _ | _ | kvs <;> simp [jGet] at h
  simp [jIndex, h]

/-- The line `sourceLine` produces for a normalized search dict. -/
theorem sourceLine_searchNorm (r : RawDict) :
    sourceLine (searchNorm r) = Except.ok (sourceLineStr r) := rfl

theorem collectLines_searchNorm (resp : List RawDict) :
    ∃ lines, collectLines (resp.map searchNorm) = Except.ok lines := by
  induction resp with
  | nil => exact ⟨[], rfl⟩
  | cons r rest ih =>
    obtain ⟨lines, hl⟩ := ih
    refine ⟨sourceLineStr r :: lines, ?_⟩
    simp only [List.map_cons, collectLines, sourceLine_searchNorm, ebind_ok, hl]

theorem buildSearchContext_searchNorm (resp : List RawDict) :
    ∃ sc, buildSearchContext (resp.map searchNorm) = Except.ok sc := by
  obtain ⟨lines, hl⟩ := collectLines_searchNorm resp
  exact ⟨String.intercalate "\n\n" lines, by simp only [buildSearchContext, hl, ebind_ok]⟩

/-- C6: for every company name and website whose two verification searches
both return empty result lists, `verify_company` does not fail and does not
consult the LLM (the result is the same for every LLM outcome `chatFn`): it
returns `verified = false`, the description `Could not verify <name>`, no
similar companies, verification method `no search results`, paired with an
empty results list. -/
theorem C6_empty_verification (company_name website : String)
    (chatFn : String → Except String String) :
    verify_company company_name website (Except.ok []) (Except.ok []) chatFn =
      Except.ok
        ({ verified := false
           company_description := s!"Could not verify {company_name}"
           similar_companies := []
           verification_method := "no search results" }, []) := rfl

/-- C8: the prompt construction of each specialist agent (the user message built
inside `synthesize` before the LLM call) is deterministic: on equal company
names, equal search-result list and equal optional context, two runs build
character-for-character equal prompts, for all three agents. -/
theorem C8_prompt_deterministic (c c2 : String) (rs rs2 : List RawDict)
    (ctx ctx2 : Option String) (h1 : c = c2) (h2 : rs = rs2) (h3 : ctx = ctx2) :
    competitor.user_msg c rs ctx = competitor.user_msg c2 rs2 ctx2 ∧
    founder.user_msg c rs ctx = founder.user_msg c2 rs2 ctx2 ∧
    business.user_msg c rs ctx = business.user_msg c2 rs2 ctx2 := by
  subst h1
  subst h2
  subst h3
  exact ⟨rfl, rfl, rfl⟩

theorem C8_prompt_deterministic_witness :
    ("Acme" : String) = "Acme" ∧ ([[("title", "T")]] : List RawDict) = [[("title", "T")]] ∧
    (some "ctx" : Option String) = some "ctx" ∧
    (competitor.user_msg "Acme" [[("title", "T")]] (some "ctx") =
       competitor.user_msg "Acme" [[("title", "T")]] (some "ctx") ∧
     founder.user_msg "Acme" [[("title", "T")]] (some "ctx") =
       founder.user_msg "Acme" [[("title", "T")]] (some "ctx") ∧
     business.user_msg "Acme" [[("title", "T")]] (some "ctx") =
       business.user_msg "Acme" [[("title", "T")]] (some "ctx")) :=
  ⟨rfl, rfl, rfl,
   C8_prompt_deterministic "Acme" "Acme" [[("title", "T")]] [[("title", "T")]]
     (some "ctx") (some "ctx") rfl rfl rfl⟩

/-- C10: every dict produced by `search` has exactly the keys `title`,
`url`, `content` in that order (missing provider fields default to `""`),
its `content` value has at most 500 characters, and consequently the
`r[...]` indexing done by `verify_company` and every specialist prompt
builder is total on search output. -/
theorem C10_search_dict_invariant (query : String) (n : Nat) (resp : List RawDict)
    (l : List RawDict) (h : search query n (Except.ok resp) = Except.ok l) :
    (∀ r ∈ l, r.map Prod.fst = ["title", "url", "content"] ∧
      ∀ v, dictGet r "content" = some v → v.length ≤ 500) ∧
    (buildSearchContext l).isOk = true ∧
    (∀ c ctx, (competitor.user_msg c l ctx).isOk = true ∧
      (founder.user_msg c l ctx).isOk = true ∧
      (business.user_msg c l ctx).isOk = true) := by
  have hl : l = resp.map searchNorm := by
    unfold search at h
    rw [ebind_ok] at h
    injection h with h2
    exact h2.symm
  subst hl
  obtain ⟨sc, hsc⟩ := buildSearchContext_searchNorm resp
  refine ⟨?_, ?_, ?_⟩
  · intro r hr
    obtain ⟨r0, _, hr0⟩ := List.mem_map.mp hr
    subst hr0
    constructor
    · rfl
    · intro v hv
      have hv2 : v = pyTake (dictGetD r0 "content" "") 500 := by
        simp [searchNorm, dictGet, List.find?] at hv
        exact hv.symm
      subst hv2
      show (pyTake (dictGetD r0 "content" "") 500).data.length ≤ 500
      simp [pyTake]
  · rw [hsc]
    rfl
  · intro c ctx
    refine ⟨?_, ?_, ?_⟩ <;>
      simp only [competitor.user_msg, founder.user_msg, business.user_msg, hsc, ebind_ok] <;>
      rfl

theorem C10_search_dict_invariant_witness :
    search "acme" 3 (Except.ok [[("title", "T"), ("content", "C")]]) =
      Except.ok [[("title", "T"), ("url", ""), ("content", "C")]] ∧
    ((∀ r ∈ ([[("title", "T"), ("url", ""), ("content", "C")]] : List RawDict),
        r.map Prod.fst = ["title", "url", "content"] ∧
        ∀ v, dictGet r "content" = some v → v.length ≤ 500) ∧
     (buildSearchContext [[("title", "T"), ("url", ""), ("content", "C")]]).isOk = true ∧
     (∀ c ctx,
       (competitor.user_msg c [[("title", "T"), ("url", ""), ("content", "C")]] ctx).isOk = true ∧
       (founder.user_msg c [[("title", "T"), ("url", ""), ("content", "C")]] ctx).isOk = true ∧
       (business.user_msg c [[("title", "T"), ("url", ""), ("content", "C")]] ctx).isOk = true)) :=
  ⟨rfl, C10_search_dict_invariant "acme" 3 [[("title", "T"), ("content", "C")]]
    [[("title", "T"), ("url", ""), ("content", "C")]] rfl⟩

/-- C7: for every LLM reply that is not valid JSON after stripping markdown
fences, `route` raises the JSON parsing error instead of returning a
result, and so does `verify_company` whenever its searches returned a
non-empty combined result list; the error propagates to the caller as the
outcome of the call. -/
theorem C7_parse_error (reply company_name user_query w2 : String)
    (website ctx : Option String) (respA respB : List RawDict)
    (hjson : parseJson (stripFences reply) = none)
    (hne : respA ++ respB ≠ []) :
    route company_name website user_query ctx (fun _ => Except.ok reply) =
      Except.error JSONDecodeError ∧
    verify_company company_name w2 (Except.ok respA) (Except.ok respB)
      (fun _ => Except.ok reply) = Except.error JSONDecodeError := by
  have hp : parse_json_response reply = Except.error JSONDecodeError := by
    unfold parse_json_response
    rw [hjson]
  constructor
  · unfold route
    simp only [ebind_ok, hp, ebind_err]
  · obtain ⟨x, xs, hxx⟩ : ∃ x xs, respA ++ respB = x :: xs := by
      cases h2 : respA ++ respB with
      | nil => exact absurd h2 hne
      | cons a b => exact ⟨a, b, rfl⟩
    unfold verify_company search
    simp only [ebind_ok, ← List.map_append, hxx]
    obtain ⟨sc, hsc⟩ := buildSearchContext_searchNorm (x :: xs)
    simp only [List.map_cons] at hsc
    simp only [List.map_cons, List.isEmpty_cons, Bool.false_eq_true, if_false, hsc, ebind_ok,
      hp, ebind_err]

theorem C7_parse_error_witness :
    parseJson (stripFences "not json") = none ∧
    ([[("title", "T")]] : List RawDict) ++ [] ≠ [] ∧
    (route "Acme" none "hmm" none (fun _ => Except.ok "not json") =
       Except.error JSONDecodeError ∧
     verify_company "Acme" "acme.com" (Except.ok [[("title", "T")]]) (Except.ok [])
       (fun _ => Except.ok "not json") = Except.error JSONDecodeError) :=
  ⟨rfl, by decide,
   C7_parse_error "not json" "Acme" "hmm" "acme.com" none none [[("title", "T")]] []
     rfl (by decide)⟩

set_option maxRecDepth 4000 in
/-- C5 counterexample: the claim fails as stated, because the intent enum
also admits the value `unknown`: the reply `replyUnknown` parses as JSON
and its intent field `"unknown"` is a valid `IntentType`, yet `route`
returns a `RouterResult` whose intent is none of the three categories. -/
theorem C5_counterexample :
    parseJson (stripFences replyUnknown) =
      some (JValue.obj
        [("intent", JValue.str "unknown"), ("reasoning", JValue.str "fallback"),
         ("search_queries", JValue.arr [JValue.str "Acme info"])]) ∧
    IntentType.ofString "unknown" = some IntentType.unknown ∧
    route "Acme" none "hmm" none (fun _ => Except.ok replyUnknown) = Except.ok rrC9 ∧
    rrC9.intent ≠ IntentType.competitor ∧
    rrC9.intent ≠ IntentType.founder ∧
    rrC9.intent ≠ IntentType.business := by
  refine ⟨rfl, rfl, rfl, ?_, ?_, ?_⟩ <;> decide

/-- C5 (amended): for every input on which the LLM reply parses as JSON
whose intent field is one of the three category strings, `route` returns a
`RouterResult` whose intent is one of the three fixed categories — in fact
the category corresponding to the field (the enum additionally admits
`unknown`, which `route` returns when the field is the string
`"unknown"`). -/
theorem C5_intent_categories (company_name : String) (website : Option String)
    (user_query : String) (ctx : Option String) (reply : String) (d : JValue) (s : String)
    (rr : RouterResult)
    (h1 : parseJson (stripFences reply) = some d)
    (h2 : jGet d "intent" = some (JValue.str s))
    (h3 : s = "competitor_analysis" ∨ s = "founder_lookup" ∨ s = "business_overview")
    (h4 : route company_name website user_query ctx (fun _ => Except.ok reply) = Except.ok rr) :
    (s = "competitor_analysis" → rr.intent = IntentType.competitor) ∧
    (s = "founder_lookup" → rr.intent = IntentType.founder) ∧
    (s = "business_overview" → rr.intent = IntentType.business) ∧
    (rr.intent = IntentType.competitor ∨ rr.intent = IntentType.founder ∨
      rr.intent = IntentType.business) := by
  have hp : parse_json_response reply = Except.ok d := by
    unfold parse_json_response
    rw [h1]
  have hji : jIndex d "intent" = Except.ok (JValue.str s) := jIndex_of_jGet h2
  have hint : IntentType.ofString s = some rr.intent := by
    unfold route at h4
    simp only [ebind_ok, hp, hji] at h4
    rcases hof : IntentType.ofString s with _ | i
    · simp only [hof, ebind_err] at h4
      exact Except.noConfusion h4
    · simp only [hof, ebind_ok] at h4
      rcases hjr : jIndex d "reasoning" with e | rv
      · simp only [hjr, ebind_err] at h4
        exact Except.noConfusion h4
      · simp only [hjr, ebind_ok] at h4
        rcases has : asPyStr rv with e | reasoning
        · simp only [has, ebind_err] at h4
          exact Except.noConfusion h4
        · simp only [has, ebind_ok] at h4
          rcases hq : jGet d "search_queries" with _ | qv
          · simp only [hq, ebind_ok] at h4
            injection h4 with h5
            rw [← h5]
          · simp only [hq] at h4
            rcases hsl : asPyStrList qv with e | qs
            · simp only [hsl, ebind_err] at h4
              exact Except.noConfusion h4
            · simp only [hsl, ebind_ok] at h4
              injection h4 with h5
              rw [← h5]
  rcases h3 with h3 | h3 | h3 <;> subst h3
  · have h6 : some IntentType.competitor = some rr.intent := hint
    injection h6 with h7
    exact ⟨fun _ => h7.symm, fun hc => absurd hc (by decide), fun hc => absurd hc (by decide),
      Or.inl h7.symm⟩
  · have h6 : some IntentType.founder = some rr.intent := hint
    injection h6 with h7
    exact ⟨fun hc => absurd hc (by decide), fun _ => h7.symm, fun hc => absurd hc (by decide),
      Or.inr (Or.inl h7.symm)⟩
  · have h6 : some IntentType.business = some rr.intent := hint
    injection h6 with h7
    exact ⟨fun hc => absurd hc (by decide), fun hc => absurd hc (by decide), fun _ => h7.symm,
      Or.inr (Or.inr h7.symm)⟩

set_option maxRecDepth 4000 in
theorem C5_intent_categories_witness :
    parseJson (stripFences replyCompetitor) = some dC5 ∧
    jGet dC5 "intent" = some (JValue.str "competitor_analysis") ∧
    ("competitor_analysis" = "competitor_analysis" ∨
      "competitor_analysis" = "founder_lookup" ∨
      "competitor_analysis" = "business_overview") ∧
    route "Acme" none "hmm" none (fun _ => Except.ok replyCompetitor) = Except.ok rrC5 ∧
    (("competitor_analysis" = "competitor_analysis" → rrC5.intent = IntentType.competitor) ∧
     ("competitor_analysis" = "founder_lookup" → rrC5.intent = IntentType.founder) ∧
     ("competitor_analysis" = "business_overview" → rrC5.intent = IntentType.business) ∧
     (rrC5.intent = IntentType.competitor ∨ rrC5.intent = IntentType.founder ∨
       rrC5.intent = IntentType.business)) := by
  have h4 : route "Acme" none "hmm" none (fun _ => Except.ok replyCompetitor) =
      Except.ok rrC5 := by rfl
  exact ⟨rfl, rfl, Or.inl rfl, h4,
    C5_intent_categories "Acme" none "hmm" none replyCompetitor dC5
      "competitor_analysis" rrC5 rfl rfl (Or.inl rfl) h4⟩
